import Mathlib

/-!
Shallow embedding of the tile-map renderer (`json_map.py`, `maprenderer.py`):
texture-atlas slicing, gid → texture indexing, tile-layer and object-group
sprite pooling under a moving viewport, and the Map-level viewport state
machine.  Python dictionaries are embedded as association lists with
last-assignment-wins lookup; Python lists as Lean lists with the negative-index
wrap of Python indexing; fractional viewport coordinates as rationals.
-/

/-- Lookup in an association list with Python-dict semantics: the most recent
assignment (the rightmost pair with the key) wins. -/
def dlookup {α β : Type} [DecidableEq α] : List (α × β) → α → Option β
  | [], _ => none
  | p :: l, a =>
    match dlookup l a with
    | some b => some b
    | none => if p.1 = a then some p.2 else none

/-- Membership of a key in a Python dict (`k in d`). -/
def dcontains {α β : Type} [DecidableEq α] (d : List (α × β)) (a : α) : Bool :=
  (dlookup d a).isSome

/-- Assignment `d[k] = v` on a Python dict: any earlier binding of the key is
dropped and the new pair is appended. -/
def dassign {α β : Type} [DecidableEq α] (d : List (α × β)) (a : α) (b : β) :
    List (α × β) :=
  d.filter (fun p => p.1 ≠ a) ++ [(a, b)]

/-- Indexing a Python list: a non-negative index within range returns the
element, a negative index within `-len .. -1` wraps around from the end, and
anything else raises `IndexError`, embedded as `none`. -/
def pyListGet {α : Type} (l : List α) (i : Int) : Option α :=
  if 0 ≤ i then l.get? i.toNat
  else if -(l.length : Int) ≤ i then l.get? (i + l.length).toNat
  else none

/-- Truncation toward zero, Python's `int()` on a rational value. -/
def pyInt (q : ℚ) : Int :=
  if q < 0 then ⌈q⌉ else ⌊q⌋

/-- Embedding of `calculate_columns(image_width, tile_width, margin, spacing)`
from `json_map.py`.  The two early returns keep the source's order; the
division by `tile_width + spacing` raises `ZeroDivisionError` when the divisor
is zero, and the `assert` of the exact-division identity raises
`AssertionError` on mismatch.  Errors are embedded in `Except`. -/
def calculate_columns (image_width tile_width margin spacing : Int) :
    Except String Int :=
  let iw := image_width - margin * 2
  if iw < tile_width then Except.ok 0
  else if iw = tile_width then Except.ok 1
  else if tile_width + spacing = 0 then Except.error "ZeroDivisionError"
  else
    let columns := (iw - tile_width).fdiv (tile_width + spacing) + 1
    if columns * tile_width + spacing * (columns - 1) = iw then Except.ok columns
    else Except.error "AssertionError"

/-- The count the spec's slicing formula prescribes for usable length `U`:
`1` when `U` equals the tile length, else `(U - t) // (t + s) + 1`. -/
def specColumns (U tile_width spacing : Int) : Int :=
  if U = tile_width then 1 else (U - tile_width).fdiv (tile_width + spacing) + 1

/-- C2: for `image_len ≥ 2·margin + tile_len`, any successfully computed count
equals the spec's formula and satisfies the exact-division identity
`count*t + s*(count-1) = U`; when the formula's count fails the identity the
function is a fatal error, never a silently wrong count. -/
theorem calculate_columns_slicing_invariant
    (L t m s : Int) (hL : 2 * m + t ≤ L) :
    (∀ c, calculate_columns L t m s = Except.ok c →
      c = specColumns (L - m * 2) t s ∧
      c * t + s * (c - 1) = L - m * 2) ∧
    (specColumns (L - m * 2) t s * t +
        s * (specColumns (L - m * 2) t s - 1) ≠ L - m * 2 →
      ∃ e, calculate_columns L t m s = Except.error e) := by
  have h1 : ¬ (L - m * 2 < t) := by omega
  by_cases h2 : L - m * 2 = t
  · constructor
    · intro c hc
      simp only [calculate_columns, if_neg h1, if_pos h2, Except.ok.injEq] at hc
      subst hc
      refine ⟨by simp [specColumns, if_pos h2], by omega⟩
    · intro hbad
      exfalso
      apply hbad
      simp only [specColumns, if_pos h2]
      omega
  · have hsc : specColumns (L - m * 2) t s = (L - m * 2 - t).fdiv (t + s) + 1 := by
      simp [specColumns, h2]
    by_cases h3 : t + s = 0
    · constructor
      · intro c hc
        simp only [calculate_columns, if_neg h1, if_neg h2, if_pos h3] at hc
        simp at hc
      · intro _
        exact ⟨"ZeroDivisionError",
          by simp only [calculate_columns, if_neg h1, if_neg h2, if_pos h3]⟩
    · by_cases h4 : ((L - m * 2 - t).fdiv (t + s) + 1) * t +
          s * (((L - m * 2 - t).fdiv (t + s) + 1) - 1) = L - m * 2
      · constructor
        · intro c hc
          simp only [calculate_columns, if_neg h1, if_neg h2, if_neg h3, if_pos h4,
            Except.ok.injEq] at hc
          subst hc
          exact ⟨hsc.symm, h4⟩
        · intro hbad
          rw [hsc] at hbad
          exact absurd h4 hbad
      · constructor
        · intro c hc
          simp only [calculate_columns, if_neg h1, if_neg h2, if_neg h3, if_neg h4] at hc
          simp at hc
        · intro _
          exact ⟨"AssertionError",
            by simp only [calculate_columns, if_neg h1, if_neg h2, if_neg h3, if_neg h4]⟩

/-- Witness for C2 at image length 7, tile length 3, margin 0, spacing 1:
the computed count is 2 and the identity `2*3 + 1*(2-1) = 7` holds. -/
theorem calculate_columns_slicing_invariant_witness :
    (2 : Int) * 0 + 3 ≤ 7 ∧
    ((2 : Int) = specColumns (7 - 0 * 2) 3 1 ∧
      (2 : Int) * 3 + 1 * (2 - 1) = 7 - 0 * 2) := by
  refine ⟨by norm_num, ?_⟩
  exact (calculate_columns_slicing_invariant 7 3 0 1 (by norm_num)).1 2 rfl

/-- A successful dict lookup returns a pair that is in the list. -/
theorem dlookup_mem {α β : Type} [DecidableEq α] {l : List (α × β)} {a : α}
    {b : β} (h : dlookup l a = some b) : (a, b) ∈ l := by
  induction l with
  | nil => simp [dlookup] at h
  | cons p l ih =>
    simp only [dlookup] at h
    cases hl : dlookup l a with
    | some b' =>
      rw [hl] at h
      have hb : b' = b := by injection h
      subst hb
      exact List.mem_cons_of_mem _ (ih hl)
    | none =>
      rw [hl] at h
      by_cases hp : p.1 = a
      · rw [if_pos hp] at h
        have hb : p.2 = b := by injection h
        have hpa : p = (a, b) := by
          cases p
          simp only at hp hb
          rw [hp, hb]
        rw [hpa]
        exact List.mem_cons_self _ _
      · rw [if_neg hp] at h
        exact absurd h (by simp)

/-- If a key occurs in the list and every occurrence carries the same value,
the dict lookup returns that value. -/
theorem dlookup_eq_of_mem_unique {α β : Type} [DecidableEq α]
    {l : List (α × β)} {a : α} {b : β}
    (hm : (a, b) ∈ l) (hu : ∀ b', (a, b') ∈ l → b' = b) :
    dlookup l a = some b := by
  induction l with
  | nil => simp at hm
  | cons p l ih =>
    simp only [dlookup]
    cases hl : dlookup l a with
    | some b' =>
      have : (a, b') ∈ l := dlookup_mem hl
      rw [hu b' (List.mem_cons_of_mem _ this)]
    | none =>
      rcases List.mem_cons.mp hm with hp | hm'
      · rw [if_pos (by rw [← hp])]
        rw [← hp]
      · have hsome := ih hm' (fun b' h => hu b' (List.mem_cons_of_mem _ h))
        exact absurd (hsome.symm.trans hl) (by simp)

/-- Embedding of the gid → texture index built in `Map.__init__`: for every
tileset row `y` and column `x`, key `x + y*columns + firstgid` is assigned the
atlas grid cell `(rows-1-y, x)` (the texture itself is identified by its grid
position). -/
def build_texture_index (rows cols firstgid : Nat) : List (Nat × (Nat × Nat)) :=
  (List.range rows).flatMap (fun y =>
    (List.range cols).map (fun x => (x + y * cols + firstgid, (rows - 1 - y, x))))

/-- Membership in the texture index is exactly the double loop's assignments. -/
theorem mem_build_texture_index {rows cols firstgid : Nat}
    {p : Nat × (Nat × Nat)} :
    p ∈ build_texture_index rows cols firstgid ↔
      ∃ y, y < rows ∧ ∃ x, x < cols ∧
        p = (x + y * cols + firstgid, (rows - 1 - y, x)) := by
  simp only [build_texture_index, List.mem_flatMap, List.mem_map, List.mem_range]
  constructor
  · rintro ⟨y, hy, x, hx, rfl⟩
    exact ⟨y, hy, x, hx, rfl⟩
  · rintro ⟨y, hy, x, hx, rfl⟩
    exact ⟨y, hy, x, hx, rfl⟩

/-- Two in-range grid positions producing the same flat key coincide. -/
theorem flat_key_inj {cols x x' y y' : Nat} (hx : x < cols) (hx' : x' < cols)
    (h : x + y * cols = x' + y' * cols) : x = x' ∧ y = y' := by
  have hc : 0 < cols := lt_of_le_of_lt (Nat.zero_le x) hx
  have h1 : (x + y * cols) % cols = x := by
    rw [Nat.add_mul_mod_self_right, Nat.mod_eq_of_lt hx]
  have h2 : (x' + y' * cols) % cols = x' := by
    rw [Nat.add_mul_mod_self_right, Nat.mod_eq_of_lt hx']
  have h3 : (x + y * cols) / cols = y := by
    rw [Nat.add_mul_div_right _ _ hc, Nat.div_eq_of_lt hx, Nat.zero_add]
  have h4 : (x' + y' * cols) / cols = y' := by
    rw [Nat.add_mul_div_right _ _ hc, Nat.div_eq_of_lt hx', Nat.zero_add]
  constructor
  · rw [← h1, ← h2, h]
  · rw [← h3, ← h4, h]

/-- C3: the gid index maps global id `firstgid + col + row*columns` to the
atlas grid cell `(rows-1-row, col)` — the texture row is inverted — and for a
2×2 atlas with firstgid 1, gids 1..4 land on four distinct grid cells, gids 1
and 2 (gid-space row 0) on grid row `rows-1 = 1`, the image's bottom row. -/
theorem texture_index_row_inversion :
    (∀ rows cols firstgid row col, row < rows → col < cols →
      dlookup (build_texture_index rows cols firstgid)
        (col + row * cols + firstgid) = some (rows - 1 - row, col)) ∧
    ([dlookup (build_texture_index 2 2 1) 1, dlookup (build_texture_index 2 2 1) 2,
      dlookup (build_texture_index 2 2 1) 3, dlookup (build_texture_index 2 2 1) 4] =
      [some (1, 0), some (1, 1), some (0, 0), some (0, 1)] ∧
      [((1 : Nat), (0 : Nat)), (1, 1), (0, 0), (0, 1)].Nodup) := by
  constructor
  · intro rows cols firstgid row col hrow hcol
    apply dlookup_eq_of_mem_unique
    · exact mem_build_texture_index.mpr ⟨row, hrow, col, hcol, rfl⟩
    · intro v' hv'
      obtain ⟨y, hy, x, hx, hp⟩ := mem_build_texture_index.mp hv'
      have hfst := congrArg Prod.fst hp
      simp only at hfst
      have hkey : x + y * cols = col + row * cols := by omega
      obtain ⟨hx', hy'⟩ := flat_key_inj hx hcol hkey
      subst hx'
      subst hy'
      have hsnd := congrArg Prod.snd hp
      simpa using hsnd
  · exact ⟨by decide, by decide⟩

/-- Witness for C3: at the 2×2 atlas with firstgid 1, gid `0 + 0*2 + 1 = 1`
resolves to grid cell `(1, 0)`. -/
theorem texture_index_row_inversion_witness :
    dlookup (build_texture_index 2 2 1) (0 + 0 * 2 + 1) = some (2 - 1 - 0, 0) :=
  texture_index_row_inversion.1 2 2 1 0 0 (by decide) (by decide)

/-- Viewport state of `Map`: stored origin `(x, y)` (fractional world pixels),
stored integral size `(w, h)`, and the immutable world pixel extents
`p_width = width*tilewidth`, `p_height = height*tileheight`. -/
structure MapVP where
  x : ℚ
  y : ℚ
  w : Int
  h : Int
  p_width : Int
  p_height : Int
deriving DecidableEq, Repr

/-- Embedding of `Map.set_viewport(x, y, w, h, force)`: clamp the origin below
by 0 and then above by `p_extent - size`, truncate the size to integers, and
propagate to the layers (second component `true`) only when `force` is set or
some stored value would change; otherwise return unchanged (`false`). -/
def map_set_viewport (m : MapVP) (x y w h : ℚ) (force : Bool) : MapVP × Bool :=
  let vx0 := max x 0
  let vy0 := max y 0
  let vx := min vx0 ((m.p_width : ℚ) - w)
  let vy := min vy0 ((m.p_height : ℚ) - h)
  let vw := pyInt w
  let vh := pyInt h
  if force = false ∧ vx = m.x ∧ vy = m.y ∧ vw = m.w ∧ vh = m.h then (m, false)
  else ({ m with x := vx, y := vy, w := vw, h := vh }, true)

/-- Whatever branch is taken, the state after `set_viewport` holds the clamped
origin and truncated size, and the world extents are untouched. -/
theorem map_set_viewport_stores (m : MapVP) (x y w h : ℚ) (force : Bool) :
    (map_set_viewport m x y w h force).1.x = min (max x 0) ((m.p_width : ℚ) - w) ∧
    (map_set_viewport m x y w h force).1.y = min (max y 0) ((m.p_height : ℚ) - h) ∧
    (map_set_viewport m x y w h force).1.w = pyInt w ∧
    (map_set_viewport m x y w h force).1.h = pyInt h ∧
    (map_set_viewport m x y w h force).1.p_width = m.p_width ∧
    (map_set_viewport m x y w h force).1.p_height = m.p_height := by
  simp only [map_set_viewport]
  split
  · rename_i hcond
    obtain ⟨_, h1, h2, h3, h4⟩ := hcond
    exact ⟨h1.symm, h2.symm, h3.symm, h4.symm, rfl, rfl⟩
  · exact ⟨rfl, rfl, rfl, rfl, rfl, rfl⟩

/-- When no clamped value differs from the stored state and force is unset,
the call is the identity and does not propagate. -/
theorem map_set_viewport_noop (m : MapVP) (x y w h : ℚ)
    (h1 : min (max x 0) ((m.p_width : ℚ) - w) = m.x)
    (h2 : min (max y 0) ((m.p_height : ℚ) - h) = m.y)
    (h3 : pyInt w = m.w) (h4 : pyInt h = m.h) :
    map_set_viewport m x y w h false = (m, false) := by
  simp only [map_set_viewport]
  rw [if_pos ⟨by trivial, h1, h2, h3, h4⟩]

/-- C4: a second `set_viewport` with identical arguments and force unset does
not reach the layers (it returns before any layer `set_viewport`, so no draw
primitive is created or deleted) and leaves the state unchanged; and in
general a call propagates to the visible layers exactly when force is set or
some clamped or truncated value differs from the stored viewport. -/
theorem map_set_viewport_debounce :
    (∀ (m : MapVP) (x y w h : ℚ),
      (map_set_viewport (map_set_viewport m x y w h false).1 x y w h false).2 =
        false ∧
      (map_set_viewport (map_set_viewport m x y w h false).1 x y w h false).1 =
        (map_set_viewport m x y w h false).1) ∧
    (∀ (m : MapVP) (x y w h : ℚ) (force : Bool),
      (map_set_viewport m x y w h force).2 = true ↔
        (force = true ∨ min (max x 0) ((m.p_width : ℚ) - w) ≠ m.x ∨
          min (max y 0) ((m.p_height : ℚ) - h) ≠ m.y ∨
          pyInt w ≠ m.w ∨ pyInt h ≠ m.h)) := by
  constructor
  · intro m x y w h
    obtain ⟨h1, h2, h3, h4, h5, h6⟩ := map_set_viewport_stores m x y w h false
    have hsecond := map_set_viewport_noop (map_set_viewport m x y w h false).1
      x y w h (by rw [h5, h1]) (by rw [h6, h2]) (by rw [h3]) (by rw [h4])
    simp [hsecond]
  · intro m x y w h force
    simp only [map_set_viewport]
    split
    · rename_i hcond
      obtain ⟨hf, h1, h2, h3, h4⟩ := hcond
      subst hf
      simp [h1, h2, h3, h4]
    · rename_i hcond
      constructor
      · intro _
        by_contra hno
        push_neg at hno
        exact hcond ⟨by simpa using hno.1, hno.2.1, hno.2.2.1,
          hno.2.2.2.1, hno.2.2.2.2⟩
      · intro _
        rfl

/-- The 10×10-tile map with 16-pixel tiles of the spec's clamping property:
world pixel extents 160×160, fresh viewport state. -/
def demoMap : MapVP :=
  { x := 0, y := 0, w := 0, h := 0, p_width := 160, p_height := 160 }

/-- C5: on the 160×160-pixel world with a 64×64 viewport, a request at
(-100,-100) stores origin (0,0), a request far past the far edge stores
(96,96) = (world-64, world-64), every request stores an origin inside
[0, 96]×[0, 96] with the size stored as the integers 64×64, and a fractional
size 64.5 is truncated to the integer 64. -/
theorem map_set_viewport_clamping :
    ((map_set_viewport demoMap (-100) (-100) 64 64 false).1.x = 0 ∧
      (map_set_viewport demoMap (-100) (-100) 64 64 false).1.y = 0) ∧
    ((map_set_viewport demoMap 1000 1000 64 64 false).1.x = 160 - 64 ∧
      (map_set_viewport demoMap 1000 1000 64 64 false).1.y = 160 - 64) ∧
    (∀ x y : ℚ,
      0 ≤ (map_set_viewport demoMap x y 64 64 false).1.x ∧
      (map_set_viewport demoMap x y 64 64 false).1.x ≤ 160 - 64 ∧
      0 ≤ (map_set_viewport demoMap x y 64 64 false).1.y ∧
      (map_set_viewport demoMap x y 64 64 false).1.y ≤ 160 - 64 ∧
      (map_set_viewport demoMap x y 64 64 false).1.w = 64 ∧
      (map_set_viewport demoMap x y 64 64 false).1.h = 64) ∧
    (map_set_viewport demoMap 0 0 (129 / 2 : ℚ) (129 / 2 : ℚ) false).1.w = 64 := by
  refine ⟨?_, ?_, ?_, ?_⟩
  · constructor
    · obtain ⟨h1, _⟩ := map_set_viewport_stores demoMap (-100) (-100) 64 64 false
      rw [h1]
      norm_num [demoMap]
    · obtain ⟨_, h2, _⟩ := map_set_viewport_stores demoMap (-100) (-100) 64 64 false
      rw [h2]
      norm_num [demoMap]
  · constructor
    · obtain ⟨h1, _⟩ := map_set_viewport_stores demoMap 1000 1000 64 64 false
      rw [h1]
      norm_num [demoMap]
    · obtain ⟨_, h2, _⟩ := map_set_viewport_stores demoMap 1000 1000 64 64 false
      rw [h2]
      norm_num [demoMap]
  · intro x y
    obtain ⟨h1, h2, h3, h4, _⟩ := map_set_viewport_stores demoMap x y 64 64 false
    have hpw : ((demoMap.p_width : ℚ) - 64) = 96 := by norm_num [demoMap]
    have hph : ((demoMap.p_height : ℚ) - 64) = 96 := by norm_num [demoMap]
    refine ⟨?_, ?_, ?_, ?_, ?_, ?_⟩
    · rw [h1, hpw]
      exact le_min (le_max_right x 0) (by norm_num)
    · rw [h1, hpw]
      calc min (max x 0) 96 ≤ 96 := min_le_right _ _
        _ = 160 - 64 := by norm_num
    · rw [h2, hph]
      exact le_min (le_max_right y 0) (by norm_num)
    · rw [h2, hph]
      calc min (max y 0) 96 ≤ 96 := min_le_right _ _
        _ = 160 - 64 := by norm_num
    · rw [h3]
      norm_num [pyInt]
    · rw [h4]
      norm_num [pyInt]
  · obtain ⟨_, _, h3, _⟩ :=
      map_set_viewport_stores demoMap 0 0 (129 / 2 : ℚ) (129 / 2 : ℚ) false
    rw [h3, pyInt, if_neg (by norm_num), Int.floor_eq_iff]
    norm_num

/-- C10: when the requested viewport is wider (taller) than the world, the
stored origin component is the negative value `p_extent - size`, whatever
origin was requested, because the lower clamp to 0 runs before the upper clamp
to `p_extent - size`. -/
theorem map_set_viewport_oversized_negative (m : MapVP) (x y w h : ℚ)
    (force : Bool) :
    ((m.p_width : ℚ) < w →
      (map_set_viewport m x y w h force).1.x = (m.p_width : ℚ) - w ∧
      (map_set_viewport m x y w h force).1.x < 0) ∧
    ((m.p_height : ℚ) < h →
      (map_set_viewport m x y w h force).1.y = (m.p_height : ℚ) - h ∧
      (map_set_viewport m x y w h force).1.y < 0) := by
  obtain ⟨h1, h2, _⟩ := map_set_viewport_stores m x y w h force
  constructor
  · intro hw
    have hneg : (m.p_width : ℚ) - w < 0 := by linarith
    have hle : (m.p_width : ℚ) - w ≤ max x 0 :=
      le_trans (le_of_lt hneg) (le_max_right x 0)
    rw [h1, min_eq_right hle]
    exact ⟨rfl, hneg⟩
  · intro hh
    have hneg : (m.p_height : ℚ) - h < 0 := by linarith
    have hle : (m.p_height : ℚ) - h ≤ max y 0 :=
      le_trans (le_of_lt hneg) (le_max_right y 0)
    rw [h2, min_eq_right hle]
    exact ⟨rfl, hneg⟩

/-- Witness for C10: on the 160-pixel world, a 200×200 viewport requested at
origin (50, 50) stores origin (-40, -40) = (160-200, 160-200). -/
theorem map_set_viewport_oversized_negative_witness :
    (demoMap.p_width : ℚ) < 200 ∧ (demoMap.p_height : ℚ) < 200 ∧
    ((map_set_viewport demoMap 50 50 200 200 false).1.x =
        (demoMap.p_width : ℚ) - 200 ∧
      (map_set_viewport demoMap 50 50 200 200 false).1.x < 0) ∧
    ((map_set_viewport demoMap 50 50 200 200 false).1.y =
        (demoMap.p_height : ℚ) - 200 ∧
      (map_set_viewport demoMap 50 50 200 200 false).1.y < 0) := by
  refine ⟨by norm_num [demoMap], by norm_num [demoMap], ?_, ?_⟩
  · exact (map_set_viewport_oversized_negative demoMap 50 50 200 200 false).1
      (by norm_num [demoMap])
  · exact (map_set_viewport_oversized_negative demoMap 50 50 200 200 false).2
      (by norm_num [demoMap])

/-- Loop body of the generator `yrange(f, t, s)` in `TileLayer.set_viewport`:
yield `f` and advance by `s` while `f < t`.  The fuel argument only bounds the
iteration count for termination; with `0 < s` a fuel of `(t - f).toNat` is
never exhausted before the loop guard fails. -/
def yrangeAux (fuel : ℕ) (f t s : Int) : List Int :=
  match fuel with
  | 0 => []
  | fuel + 1 => if f < t then f :: yrangeAux fuel (f + s) t s else []

/-- Embedding of `yrange(f, t, s)`: the values `f, f+s, f+2s, ...` strictly
below `t`.  The source generator never terminates when `s ≤ 0` and `f < t`;
tile sizes are positive, and the embedding returns `[]` outside that domain. -/
def yrange (f t s : Int) : List Int :=
  if 0 < s then yrangeAux (t - f).toNat f t s else []

/-- Values produced by the stepping loop: exactly the arithmetic progression
`f + k*s` below `t`. -/
theorem yrangeAux_mem (n : ℕ) : ∀ f t s i : Int, (t - f).toNat ≤ n → 0 < s →
    (i ∈ yrangeAux n f t s ↔ ∃ k : ℕ, i = f + k * s ∧ i < t) := by
  induction n with
  | zero =>
    intro f t s i hn hs
    have hft : ¬ f < t := by omega
    rw [yrangeAux]
    simp only [List.not_mem_nil, false_iff]
    rintro ⟨k, rfl, hlt⟩
    have hks : 0 ≤ (k : Int) * s := mul_nonneg (Int.natCast_nonneg k) (le_of_lt hs)
    omega
  | succ n ih =>
    intro f t s i hn hs
    by_cases hft : f < t
    · rw [yrangeAux, if_pos hft]
      have hn' : (t - (f + s)).toNat ≤ n := by omega
      constructor
      · intro hmem
        rcases List.mem_cons.mp hmem with rfl | htail
        · exact ⟨0, by simp, hft⟩
        · obtain ⟨k, hik, hit⟩ := (ih (f + s) t s i hn' hs).mp htail
          refine ⟨k + 1, ?_, hit⟩
          rw [hik]
          push_cast
          ring
      · rintro ⟨k, hik, hit⟩
        cases k with
        | zero =>
          have hif : i = f := by simpa using hik
          rw [hif]
          exact List.mem_cons_self _ _
        | succ k =>
          apply List.mem_cons_of_mem
          rw [ih (f + s) t s i hn' hs]
          refine ⟨k, ?_, hit⟩
          rw [hik]
          push_cast
          ring
    · rw [yrangeAux, if_neg hft]
      simp only [List.not_mem_nil, false_iff]
      rintro ⟨k, rfl, hlt⟩
      have hks : 0 ≤ (k : Int) * s := mul_nonneg (Int.natCast_nonneg k) (le_of_lt hs)
      omega

/-- The generator's values are exactly the progression `f + k*s` below `t`. -/
theorem yrange_mem (f t s i : Int) (hs : 0 < s) :
    i ∈ yrange f t s ↔ ∃ k : ℕ, i = f + k * s ∧ i < t := by
  rw [yrange, if_pos hs]
  exact yrangeAux_mem _ f t s i le_rfl hs

/-- The coordinates visited by the nested viewport loops of
`TileLayer.set_viewport`: rows `j` stepping by `th` over `[y, y+h+th)`, columns
`i` stepping by `tw` over `[x, x+w+tw)`, coordinate `(i // tw, j // th)` with
floor division. -/
def tl_in_use (tw th x y w h : Int) : List (Int × Int) :=
  (yrange y (y + h + th) th).flatMap (fun j =>
    (yrange x (x + w + tw) tw).map (fun i => (i.fdiv tw, j.fdiv th)))

/-- Texture resolution for one tile coordinate inside the creation loop:
`self[coordinate]` reads the flat gid array at index `px + py*width` with
Python list indexing, then `Map.get_texture` looks the gid up in the texture
index; a failure of either step (IndexError / KeyError) is caught and yields
no sprite. -/
def tl_sprite (data : List Int) (width : Int) (texIndex : List (Int × ℕ))
    (c : Int × Int) : Option ℕ :=
  (pyListGet data (c.1 + c.2 * width)).bind (fun gid => dlookup texIndex gid)

/-- Creation pass of `TileLayer.set_viewport`: for every visited coordinate
not already pooled, store the resolved sprite — the explicit `none`
placeholder when resolution failed. -/
def tl_add (data : List Int) (width : Int) (texIndex : List (Int × ℕ))
    (sp : List ((Int × Int) × Option ℕ)) (coords : List (Int × Int)) :
    List ((Int × Int) × Option ℕ) :=
  coords.foldl (fun sp c =>
    if dcontains sp c then sp else sp ++ [(c, tl_sprite data width texIndex c)]) sp

/-- Removal pass of `TileLayer.set_viewport`: pop every pooled coordinate not
in the new visible set; the second component collects the primitives released
by `o.delete()` (only entries that held one). -/
def tl_remove (sp : List ((Int × Int) × Option ℕ)) (inUse : List (Int × Int)) :
    List ((Int × Int) × Option ℕ) × List ℕ :=
  (sp.filter (fun p => decide (p.1 ∈ inUse)),
   (sp.filter (fun p => decide (p.1 ∉ inUse))).filterMap (fun p => p.2))

/-- Embedding of `TileLayer.set_viewport(x, y, w, h)`: compute the visited
coordinate set, add missing pool entries, then evict and release everything
outside the set.  Returns the new pool and the released primitives. -/
def tl_set_viewport (data : List Int) (width : Int) (texIndex : List (Int × ℕ))
    (sp : List ((Int × Int) × Option ℕ)) (tw th x y w h : Int) :
    List ((Int × Int) × Option ℕ) × List ℕ :=
  tl_remove (tl_add data width texIndex sp (tl_in_use tw th x y w h))
    (tl_in_use tw th x y w h)

/-- Dict lookup over an append: the later segment wins. -/
theorem dlookup_append {α β : Type} [DecidableEq α]
    (l₁ l₂ : List (α × β)) (a : α) :
    dlookup (l₁ ++ l₂) a =
      match dlookup l₂ a with
      | some b => some b
      | none => dlookup l₁ a := by
  induction l₁ with
  | nil =>
    simp only [List.nil_append]
    cases dlookup l₂ a <;> simp [dlookup]
  | cons p l₁ ih =>
    simp only [List.cons_append, dlookup, List.append_eq]
    rw [ih]
    cases dlookup l₂ a <;> cases dlookup l₁ a <;> simp

/-- Lookup after the creation pass: an existing entry is untouched, a visited
missing coordinate gets the resolved sprite, everything else stays absent. -/
theorem dlookup_tl_add (data : List Int) (width : Int)
    (texIndex : List (Int × ℕ)) (coords : List (Int × Int))
    (sp : List ((Int × Int) × Option ℕ)) (c : Int × Int) :
    dlookup (tl_add data width texIndex sp coords) c =
      match dlookup sp c with
      | some v => some v
      | none =>
        if c ∈ coords then some (tl_sprite data width texIndex c) else none := by
  induction coords generalizing sp with
  | nil =>
    simp only [tl_add, List.foldl_nil]
    cases dlookup sp c <;> simp
  | cons c0 coords ih =>
    have hstep : tl_add data width texIndex sp (c0 :: coords) =
        tl_add data width texIndex
          (if dcontains sp c0 then sp
            else sp ++ [(c0, tl_sprite data width texIndex c0)]) coords := by
      simp only [tl_add, List.foldl_cons]
    rw [hstep]
    by_cases h0 : dcontains sp c0
    · rw [if_pos h0, ih]
      cases hsp : dlookup sp c with
      | some v => rfl
      | none =>
        by_cases hcc : c = c0
        · subst hcc
          exact absurd h0 (by simp [dcontains, hsp])
        · simp [List.mem_cons, hcc]
    · rw [if_neg h0, ih]
      rw [dlookup_append]
      by_cases hcc : c = c0
      · subst hcc
        have hsp : dlookup sp c = none := by
          simp only [dcontains, Option.isSome] at h0
          cases hv : dlookup sp c
          · rfl
          · rw [hv] at h0
            exact absurd rfl h0
        rw [hsp]
        simp [dlookup, List.mem_cons]
      · have h1 : dlookup [(c0, tl_sprite data width texIndex c0)] c = none := by
          simp [dlookup, Ne.symm hcc]
        rw [h1]
        cases dlookup sp c with
        | some v => rfl
        | none => simp [List.mem_cons, hcc]

/-- The creation pass never drops an existing pool entry. -/
theorem mem_tl_add_of_mem (data : List Int) (width : Int)
    (texIndex : List (Int × ℕ)) (coords : List (Int × Int))
    (sp : List ((Int × Int) × Option ℕ)) (p : (Int × Int) × Option ℕ)
    (hp : p ∈ sp) : p ∈ tl_add data width texIndex sp coords := by
  induction coords generalizing sp with
  | nil => simpa [tl_add] using hp
  | cons c0 coords ih =>
    have hstep : tl_add data width texIndex sp (c0 :: coords) =
        tl_add data width texIndex
          (if dcontains sp c0 then sp
            else sp ++ [(c0, tl_sprite data width texIndex c0)]) coords := by
      simp only [tl_add, List.foldl_cons]
    rw [hstep]
    by_cases h0 : dcontains sp c0
    · rw [if_pos h0]
      exact ih sp hp
    · rw [if_neg h0]
      exact ih _ (List.mem_append_left _ hp)

/-- Lookup in the membership-filtered pool. -/
theorem dlookup_filter_mem {β : Type} (l : List ((Int × Int) × β))
    (s : List (Int × Int)) (c : Int × Int) :
    dlookup (l.filter (fun p => decide (p.1 ∈ s))) c =
      if c ∈ s then dlookup l c else none := by
  induction l with
  | nil => simp [dlookup]
  | cons p l ih =>
    by_cases hp : p.1 ∈ s
    · rw [List.filter_cons_of_pos (by simpa using hp)]
      simp only [dlookup, ih]
      by_cases hc : c ∈ s
      · simp [hc]
      · have hpc : p.1 ≠ c := fun hpc => hc (hpc ▸ hp)
        simp [hc, hpc]
    · rw [List.filter_cons_of_neg (by simpa using hp)]
      rw [ih]
      simp only [dlookup]
      by_cases hc : c ∈ s
      · have hpc : p.1 ≠ c := fun hpc => hp (hpc ▸ hc)
        simp [hc, hpc]
        cases dlookup l c <;> simp [hpc]
      · simp [hc]

/-- C1: after `TileLayer.set_viewport(x,y,w,h)` the pool's key set is exactly
the visited coordinate set — the coordinates `(i // tw, j // th)` for `i`
stepping by `tw` over `[x, x+w+tw)` and `j` stepping by `th` over
`[y, y+h+th)` — every such coordinate has an entry (possibly the explicit
`none` placeholder), every other coordinate has been removed, and any removed
entry's draw primitive has been released. -/
theorem tl_set_viewport_pool_exact (data : List Int) (width : Int)
    (texIndex : List (Int × ℕ)) (sp : List ((Int × Int) × Option ℕ))
    (tw th x y w h : Int) (htw : 0 < tw) (hth : 0 < th) :
    (∀ c, (dlookup (tl_set_viewport data width texIndex sp tw th x y w h).1
        c).isSome ↔ c ∈ tl_in_use tw th x y w h) ∧
    (∀ c, c ∈ tl_in_use tw th x y w h ↔
      ∃ i j : Int, (∃ k : ℕ, i = x + k * tw ∧ i < x + w + tw) ∧
        (∃ k : ℕ, j = y + k * th ∧ j < y + h + th) ∧
        c = (i.fdiv tw, j.fdiv th)) ∧
    (∀ c s, dlookup sp c = some (some s) → c ∉ tl_in_use tw th x y w h →
      s ∈ (tl_set_viewport data width texIndex sp tw th x y w h).2) := by
  refine ⟨?_, ?_, ?_⟩
  · intro c
    simp only [tl_set_viewport, tl_remove]
    rw [dlookup_filter_mem]
    by_cases hc : c ∈ tl_in_use tw th x y w h
    · rw [if_pos hc, dlookup_tl_add]
      cases dlookup sp c with
      | some v => simpa using hc
      | none => simp [hc]
    · rw [if_neg hc]
      simp [hc]
  · intro c
    simp only [tl_in_use, List.mem_flatMap, List.mem_map]
    constructor
    · rintro ⟨j, hj, i, hi, rfl⟩
      exact ⟨i, j, (yrange_mem x (x + w + tw) tw i htw).mp hi,
        (yrange_mem y (y + h + th) th j hth).mp hj, rfl⟩
    · rintro ⟨i, j, hi, hj, rfl⟩
      exact ⟨j, (yrange_mem y (y + h + th) th j hth).mpr hj,
        i, (yrange_mem x (x + w + tw) tw i htw).mpr hi, rfl⟩
  · intro c s hsc hc
    have hmem : (c, some s) ∈ sp := dlookup_mem hsc
    have hmem2 : (c, some s) ∈
        tl_add data width texIndex sp (tl_in_use tw th x y w h) :=
      mem_tl_add_of_mem data width texIndex _ sp _ hmem
    simp only [tl_set_viewport, tl_remove]
    apply List.mem_filterMap.mpr
    exact ⟨(c, some s), List.mem_filter.mpr ⟨hmem2, by simpa using hc⟩, rfl⟩

/-- Witness for C1 on a 2×2 map with 16-pixel tiles, a stale pool entry at
(5,5) holding primitive 99, and viewport (0,0,16,16): the entry at (0,0) is
present exactly when visited, and the evicted primitive 99 was released. -/
theorem tl_set_viewport_pool_exact_witness :
    (0 : Int) < 16 ∧
    ((dlookup (tl_set_viewport [1, 2, 3, 4] 2 [(1, 10), (2, 20)]
        [((5, 5), some 99)] 16 16 0 0 16 16).1 (0, 0)).isSome ↔
      (0, 0) ∈ tl_in_use 16 16 0 0 16 16) ∧
    99 ∈ (tl_set_viewport [1, 2, 3, 4] 2 [(1, 10), (2, 20)]
        [((5, 5), some 99)] 16 16 0 0 16 16).2 := by
  refine ⟨by norm_num, ?_, ?_⟩
  · exact (tl_set_viewport_pool_exact [1, 2, 3, 4] 2 [(1, 10), (2, 20)]
      [((5, 5), some 99)] 16 16 0 0 16 16 (by norm_num) (by norm_num)).1 (0, 0)
  · exact (tl_set_viewport_pool_exact [1, 2, 3, 4] 2 [(1, 10), (2, 20)]
      [((5, 5), some 99)] 16 16 0 0 16 16 (by norm_num) (by norm_num)).2.2
      (5, 5) 99 (by decide) (by decide)

/-- An object of an object-group layer: world pixel position, visibility,
optional name, type and gid, as read from the map description. -/
structure PyObj where
  name : Option String
  otype : Option String
  x : Int
  y : Int
  visible : Bool
  gid : Option Int
deriving DecidableEq, Repr

/-- Name key of an object, `obj.get("name", "?")`. -/
def pyName (o : PyObj) : String := o.name.getD "?"

/-- Type key of an object, `obj.get("type", "?")`. -/
def pyType (o : PyObj) : String := o.otype.getD "?"

/-- Tile-coordinate key of an object,
`(int(x) // tilewidth, int(y) // tileheight - 1)` with floor division. -/
def ogCoord (tw th : Int) (o : PyObj) : Int × Int :=
  (o.x.fdiv tw, o.y.fdiv th - 1)

/-- One step of index construction: ensure the key has a (possibly empty)
sequence in the dict, then append the object to it. -/
def dinsertApp {α β : Type} [DecidableEq α] (d : List (α × List β)) (k : α)
    (v : β) : List (α × List β) :=
  match dlookup d k with
  | some l => d ++ [(k, l ++ [v])]
  | none => d ++ [(k, [v])]

/-- Index construction of `ObjectGroup.__init__`: fold over the objects in
data order, appending each to the sequence of its key. -/
def og_build_index {κ : Type} [DecidableEq κ] (key : PyObj → κ)
    (objs : List PyObj) : List (κ × List PyObj) :=
  objs.foldl (fun d o => dinsertApp d (key o) o) []

/-- Lookup after folding the index construction over any starting dict. -/
theorem og_build_aux {κ : Type} [DecidableEq κ] (key : PyObj → κ)
    (objs : List PyObj) (d : List (κ × List PyObj)) (k : κ) :
    dlookup (objs.foldl (fun d o => dinsertApp d (key o) o) d) k =
      match dlookup d k with
      | some l => some (l ++ objs.filter (fun o => decide (key o = k)))
      | none =>
        if objs.filter (fun o => decide (key o = k)) = [] then none
        else some (objs.filter (fun o => decide (key o = k))) := by
  induction objs generalizing d with
  | nil =>
    simp only [List.foldl_nil, List.filter_nil]
    cases dlookup d k <;> simp
  | cons o objs ih =>
    simp only [List.foldl_cons]
    rw [ih]
    by_cases hko : key o = k
    · have hfil : (o :: objs).filter (fun o => decide (key o = k)) =
          o :: objs.filter (fun o => decide (key o = k)) :=
        List.filter_cons_of_pos (by simpa using hko)
      cases hd : dlookup d k with
      | some l =>
        have hd' : dlookup (dinsertApp d (key o) o) k = some (l ++ [o]) := by
          rw [dinsertApp, hko, hd, dlookup_append]
          simp [dlookup]
        rw [hd', hfil]
        simp
      | none =>
        have hd' : dlookup (dinsertApp d (key o) o) k = some [o] := by
          rw [dinsertApp, hko, hd, dlookup_append]
          simp [dlookup]
        rw [hd', hfil]
        simp
    · have hfil : (o :: objs).filter (fun o => decide (key o = k)) =
          objs.filter (fun o => decide (key o = k)) :=
        List.filter_cons_of_neg (by simpa using hko)
      have hd' : dlookup (dinsertApp d (key o) o) k = dlookup d k := by
        rw [dinsertApp]
        cases hdo : dlookup d (key o) <;>
          · rw [dlookup_append]
            simp [dlookup, hko]
      rw [hd', hfil]

/-- Lookup in a freshly built index is the ordered filter of the objects. -/
theorem og_build_lookup {κ : Type} [DecidableEq κ] (key : PyObj → κ)
    (objs : List PyObj) (k : κ) :
    dlookup (og_build_index key objs) k =
      if objs.filter (fun o => decide (key o = k)) = [] then none
      else some (objs.filter (fun o => decide (key o = k))) := by
  have h := og_build_aux key objs [] k
  simpa [og_build_index, dlookup] using h

/-- Name lookup `ObjectGroup.__getitem__(name)`: the sequence stored in the
name index, `KeyError` (none) when the name is unknown. -/
def og_getitem_name (objs : List PyObj) (n : String) : Option (List PyObj) :=
  dlookup (og_build_index pyName objs) n

/-- Type lookup `ObjectGroup.get_by_type(otype)`. -/
def og_get_by_type (objs : List PyObj) (t : String) : Option (List PyObj) :=
  dlookup (og_build_index pyType objs) t

/-- Coordinate lookup `ObjectGroup.__getitem__((x, y))`: the first object of
the sequence stored at the tile coordinate. -/
def og_getitem_coord (objs : List PyObj) (tw th : Int) (c : Int × Int) :
    Option PyObj :=
  (dlookup (og_build_index (ogCoord tw th) objs) c).bind List.head?

/-- First demo object of the spec's object-index property: name "a" at (0,0). -/
def objA0 : PyObj :=
  { name := some "a", otype := none, x := 0, y := 0, visible := true,
    gid := none }

/-- Second demo object: name "a" at (32,0). -/
def objA1 : PyObj :=
  { name := some "a", otype := none, x := 32, y := 0, visible := true,
    gid := none }

/-- C6: the three object-group indices are exact — name lookup returns the
ordered subsequence of objects bearing that name, type lookup likewise,
coordinate lookup returns the first object inserted at the tile coordinate
`(x // tw, y // th - 1)` — and on the two objects named "a" at (0,0) and
(32,0) with 32-pixel tiles, name lookup of "a" returns both in insertion
order while coordinate lookup of (1,-1) returns the second one. -/
theorem objectgroup_index_correct :
    (∀ (objs : List PyObj) (n : String),
      og_getitem_name objs n =
        if objs.filter (fun o => decide (pyName o = n)) = [] then none
        else some (objs.filter (fun o => decide (pyName o = n)))) ∧
    (∀ (objs : List PyObj) (t : String),
      og_get_by_type objs t =
        if objs.filter (fun o => decide (pyType o = t)) = [] then none
        else some (objs.filter (fun o => decide (pyType o = t)))) ∧
    (∀ (objs : List PyObj) (tw th : Int) (c : Int × Int),
      og_getitem_coord objs tw th c =
        (objs.filter (fun o => decide (ogCoord tw th o = c))).head?) ∧
    (og_getitem_name [objA0, objA1] "a" = some [objA0, objA1] ∧
      og_getitem_coord [objA0, objA1] 32 32 (1, -1) = some objA1) := by
  refine ⟨?_, ?_, ?_, by decide, by decide⟩
  · intro objs n
    exact og_build_lookup pyName objs n
  · intro objs t
    exact og_build_lookup pyType objs t
  · intro objs tw th c
    rw [og_getitem_coord, og_build_lookup]
    by_cases hfil : objs.filter (fun o => decide (ogCoord tw th o = c)) = []
    · rw [if_pos hfil, hfil]
      rfl
    · rw [if_neg hfil]
      rfl

/-- A layer entry of the map description: name, type and visibility. -/
structure LayerData where
  name : String
  ltype : String
  visible : Bool
deriving DecidableEq, Repr

/-- The duplicate-name test at the head of the layer loop of `Map.__init__`:
`layer['name'] in (self.tilelayers, self.objectgroups)` asks whether the name
string equals one of the two dict objects of the tuple — it never inspects
their keys, and a string never equals a dict, so the test is identically
false. -/
def duplicate_name_check (_name : String)
    (_tilelayers _objectgroups : List (String × ℕ)) : Bool :=
  false

/-- Layer-registration loop of `Map.__init__`: run the duplicate check, then
dispatch on the layer type, recording each layer's position in `self.layers`
under its name in the matching sub-map; an unknown type raises `ValueError`.
Returns the `tilelayers` and `objectgroups` name maps. -/
def build_layers_aux (tl og : List (String × ℕ)) (idx : ℕ) :
    List LayerData → Except String (List (String × ℕ) × List (String × ℕ))
  | [] => Except.ok (tl, og)
  | layer :: rest =>
    if duplicate_name_check layer.name tl og then
      Except.error ("Duplicated layer name " ++ layer.name)
    else if layer.ltype = "tilelayer" then
      build_layers_aux (dassign tl layer.name idx) og (idx + 1) rest
    else if layer.ltype = "objectgroup" then
      build_layers_aux tl (dassign og layer.name idx) (idx + 1) rest
    else Except.error ("unsupported layer type " ++ layer.ltype)

/-- Layer registration starting from empty sub-maps. -/
def build_layers (layers : List LayerData) :
    Except String (List (String × ℕ) × List (String × ℕ)) :=
  build_layers_aux [] [] 0 layers

/-- C7 (falsified by the code): constructing a map whose description holds two
layers with the same name does not raise — the second silently overwrites the
first in the name map — and a tile layer and an object group sharing a name
both survive, so the name appears in both sub-maps; only the unsupported layer
type is actually fatal. -/
theorem duplicate_layer_name_not_fatal :
    build_layers [⟨"a", "tilelayer", true⟩, ⟨"a", "tilelayer", true⟩] =
      Except.ok ([("a", 1)], []) ∧
    build_layers [⟨"a", "tilelayer", true⟩, ⟨"a", "objectgroup", true⟩] =
      Except.ok ([("a", 0)], [("a", 1)]) ∧
    build_layers [⟨"a", "tilelayer", true⟩, ⟨"b", "imagelayer", true⟩] =
      Except.error ("unsupported layer type " ++ "imagelayer") := by
  refine ⟨rfl, rfl, rfl⟩

/-- Embedding of `TileLayer.__contains__((x, y))`:
`int(x + y*width) in self.data["data"]` — Python `in` on a list tests VALUE
membership, so this asks whether the flat index occurs among the stored gid
values, not whether it addresses a valid position. -/
def tilelayer_contains (data : List Int) (width x y : Int) : Bool :=
  decide ((x + y * width) ∈ data)

/-- Embedding of `TileLayer.__getitem__((x, y))`:
`self.data["data"][int(x + y*width)]` with Python list indexing (negative
wrap; IndexError, embedded as none, only past that). -/
def tilelayer_get (data : List Int) (width x y : Int) : Option Int :=
  pyListGet data (x + y * width)

/-- C8 (falsified by the code): on the 2-wide layer with gid data
[5, 6, 7, 8], coordinate (0,0) — flat index 0, a valid position — is reported
absent because 0 is not among the gid values, while coordinate (1,2) — flat
index 5, past the 4-element array — is reported present because gid 5 occurs,
yet its lookup raises IndexError; and the out-of-range flat index -1 returns
the last tile instead of an error. -/
theorem tilelayer_contains_value_membership :
    tilelayer_contains [5, 6, 7, 8] 2 0 0 = false ∧
    tilelayer_get [5, 6, 7, 8] 2 0 0 = some 5 ∧
    tilelayer_contains [5, 6, 7, 8] 2 1 2 = true ∧
    tilelayer_get [5, 6, 7, 8] 2 1 2 = none ∧
    tilelayer_get [5, 6, 7, 8] 2 1 (-1) = some 8 := by
  refine ⟨rfl, rfl, rfl, rfl, rfl⟩

/-- Visibility window test of `ObjectGroup.set_viewport`: the object position
lies strictly inside the viewport expanded by one tile on each side,
`x-tw < obj.x < x+w+tw and y-th < obj.y < y+h+th`. -/
def og_window (tw th x y w h : Int) (o : PyObj) : Bool :=
  decide (x - tw < o.x) && decide (o.x < x + w + tw) &&
    decide (y - th < o.y) && decide (o.y < y + h + th)

/-- Creation pass of `ObjectGroup.set_viewport`: scan all objects; a visible,
gid-bearing (truthy gid, i.e. present and nonzero) object inside the window is
assigned into the pool under its `(x, y)` coordinate — the assignment is
unconditional, so when `Map.get_texture` raises (gid missing from the index,
caught by the except branch) the stored sprite is the explicit `none`.  The
second component accumulates the in-use coordinates. -/
def og_add (texIndex : List (Int × ℕ)) (tw th x y w h : Int)
    (objs : List PyObj) (sp : List ((Int × Int) × Option ℕ)) :
    List ((Int × Int) × Option ℕ) × List (Int × Int) :=
  objs.foldl (fun acc o =>
    if og_window tw th x y w h o then
      if !o.visible then acc
      else
        match o.gid with
        | some g =>
          if g ≠ 0 then
            (dassign acc.1 (o.x, o.y) (dlookup texIndex g),
              acc.2 ++ [(o.x, o.y)])
          else acc
        | none => acc
    else acc) (sp, [])

/-- The `o.delete()` calls of the object-group removal pass: unlike the tile
layer's pass there is no None guard, so an evicted entry holding no primitive
raises `AttributeError`. -/
def og_delete_all : List (Option ℕ) → Except String (List ℕ)
  | [] => Except.ok []
  | some s :: rest => (og_delete_all rest).map (fun l => s :: l)
  | none :: _ => Except.error "AttributeError"

/-- Embedding of `ObjectGroup.set_viewport(x, y, w, h)`: creation pass, then
eviction of every pooled coordinate not in use, deleting each evicted entry's
primitive without a None check.  Returns the new pool and the released
primitives, or the uncaught exception. -/
def og_set_viewport (texIndex : List (Int × ℕ)) (tw th : Int)
    (objs : List PyObj) (sp : List ((Int × Int) × Option ℕ))
    (x y w h : Int) :
    Except String (List ((Int × Int) × Option ℕ) × List ℕ) :=
  let r := og_add texIndex tw th x y w h objs sp
  let unused := r.1.filter (fun p => decide (p.1 ∉ r.2))
  (og_delete_all (unused.map (fun p => p.2))).map
    (fun del => (r.1.filter (fun p => decide (p.1 ∈ r.2)), del))

/-- A visible object at the origin whose gid 5 is not in the texture index,
so its texture resolution fails. -/
def badGidObj : PyObj :=
  { name := none, otype := none, x := 0, y := 0, visible := true,
    gid := some 5 }

/-- C9 (falsified by the code): when texture resolution fails for a visible
gid-bearing object, `ObjectGroup.set_viewport` still stores a pool entry — the
explicit `none` placeholder — and a later call that evicts that coordinate
calls delete on it unconditionally and raises AttributeError instead of
removing it cleanly. -/
theorem objectgroup_pool_stores_none_placeholder :
    og_set_viewport [] 32 32 [badGidObj] [] 0 0 32 32 =
      Except.ok ([((0, 0), none)], []) ∧
    og_set_viewport [] 32 32 [badGidObj] [((0, 0), none)] 1000 1000 32 32 =
      Except.error "AttributeError" := by
  refine ⟨rfl, rfl⟩
